import Mathlib

/-!
Shallow embedding of the RoadColor library (`src/roadcolor/color.py`):
RGB/HSL value types with clamp/wrap invariants, the string parser, the
colour operations (invert, blend, contrast ratio, complement) and the
palette generators, together with proofs about the claims of the
specification.

Conventions of the embedding:
* Python `int` is `ℤ`; Python `float` arithmetic is modelled exactly over
  `ℚ` (the source only adds, subtracts, multiplies and divides values).
* Python `int(x)` on a float truncates toward zero (`pyInt`); Python
  `x % 1.0` on floats is floor-mod (`pyMod1`).
* Python `a // b` on ints is floor division (`Int.fdiv`); `a % b` for
  `b > 0` agrees with Lean `Int.emod`, written `%`.
* Code that raises (`ValueError` in parsing, `ZeroDivisionError` in
  `80 // count`) returns `Option`; `none` is the raised error.
* Strings are treated as ASCII: `str.strip`/`str.lower` and the regex
  classes `\d`/`\s` are modelled on their ASCII cases (every input
  appearing in the claims is ASCII).
* The conversions call the CPython stdlib functions `colorsys.rgb_to_hls`,
  `colorsys.hls_to_rgb` and its helper `_v`; these are transcribed below
  (`rgb_to_hls`, `hls_to_rgb`, `hlsV`) from the stdlib source.
-/

/-- Python `int()` applied to an exact rational: truncation toward zero. -/
def pyInt (q : ℚ) : ℤ := if q < 0 then -⌊-q⌋ else ⌊q⌋

/-- Python float `x % 1.0` (floor-mod, always in `[0, 1)`). -/
def pyMod1 (q : ℚ) : ℚ := q - ⌊q⌋

/-- The channel clamp of `RGB.__post_init__`: `max(0, min(255, x))`. -/
def clamp255 (x : ℤ) : ℤ := max 0 (min 255 x)

/-- The percent clamp of `HSL.__post_init__`: `max(0, min(100, x))`. -/
def clamp100 (x : ℤ) : ℤ := max 0 (min 100 x)

/-- Dataclass `RGB` (field values as left by `__post_init__`). -/
structure RGB where
  r : ℤ
  g : ℤ
  b : ℤ
deriving DecidableEq, Repr

/-- `RGB(r, g, b)`: construction runs `__post_init__`, clamping each channel
into `[0, 255]`. -/
def RGB.ofInts (r g b : ℤ) : RGB := ⟨clamp255 r, clamp255 g, clamp255 b⟩

/-- The invariant `__post_init__` establishes on every constructed `RGB`. -/
def RGB.inRange (c : RGB) : Prop :=
  0 ≤ c.r ∧ c.r ≤ 255 ∧ 0 ≤ c.g ∧ c.g ≤ 255 ∧ 0 ≤ c.b ∧ c.b ≤ 255

instance (c : RGB) : Decidable c.inRange := by
  unfold RGB.inRange
  infer_instance

/-- Dataclass `HSL`. -/
structure HSL where
  h : ℤ
  s : ℤ
  l : ℤ
deriving DecidableEq, Repr

/-- `HSL(h, s, l)`: `__post_init__` wraps the hue modulo 360 and clamps
saturation and lightness into `[0, 100]`. -/
def HSL.ofInts (h s l : ℤ) : HSL := ⟨h % 360, clamp100 s, clamp100 l⟩

/-- Stdlib `colorsys.rgb_to_hls` over exact rationals; returns `(h, l, s)`. -/
def rgb_to_hls (r g b : ℚ) : ℚ × ℚ × ℚ :=
  let maxc := max r (max g b)
  let minc := min r (min g b)
  let l := (maxc + minc) / 2
  if minc = maxc then (0, l, 0)
  else
    let rangec := maxc - minc
    let s := if l ≤ 1/2 then rangec / (maxc + minc) else rangec / (2 - maxc - minc)
    let rc := (maxc - r) / rangec
    let gc := (maxc - g) / rangec
    let bc := (maxc - b) / rangec
    let h := if r = maxc then bc - gc else if g = maxc then 2 + rc - bc else 4 + gc - rc
    (pyMod1 (h / 6), l, s)

/-- Stdlib `colorsys._v`, the piecewise hue helper of `hls_to_rgb`. -/
def hlsV (m1 m2 hue : ℚ) : ℚ :=
  let hue := pyMod1 hue
  if hue < 1/6 then m1 + (m2 - m1) * hue * 6
  else if hue < 1/2 then m2
  else if hue < 2/3 then m1 + (m2 - m1) * (2/3 - hue) * 6
  else m1

/-- Stdlib `colorsys.hls_to_rgb` over exact rationals. -/
def hls_to_rgb (h l s : ℚ) : ℚ × ℚ × ℚ :=
  if s = 0 then (l, l, l)
  else
    let m2 := if l ≤ 1/2 then l * (1 + s) else l + s - l * s
    let m1 := 2 * l - m2
    (hlsV m1 m2 (h + 1/3), hlsV m1 m2 h, hlsV m1 m2 (h - 1/3))

/-- Lowercase hex digit of `n ∈ [0, 15]`, as printed by format code `x`. -/
def hexDigit (n : ℤ) : Char :=
  if n < 10 then Char.ofNat (48 + n.toNat) else Char.ofNat (87 + n.toNat)

/-- `f"{v:02x}"` for a channel value `v ∈ [0, 255]`. -/
def byteToHex (n : ℤ) : List Char := [hexDigit (n / 16), hexDigit (n % 16)]

/-- `RGB.to_hex`: `f"#{r:02x}{g:02x}{b:02x}"`. -/
def RGB.to_hex (c : RGB) : String :=
  String.mk ('#' :: (byteToHex c.r ++ byteToHex c.g ++ byteToHex c.b))

/-- `RGB.to_hsl`: normalize the channels to `[0, 1]`, apply
`colorsys.rgb_to_hls`, scale to degrees/percent truncating to ints. -/
def RGB.to_hsl (c : RGB) : HSL :=
  let hls := rgb_to_hls ((c.r : ℚ) / 255) ((c.g : ℚ) / 255) ((c.b : ℚ) / 255)
  HSL.ofInts (pyInt (hls.1 * 360)) (pyInt (hls.2.2 * 100)) (pyInt (hls.2.1 * 100))

/-- `HSL.to_rgb`: normalize, apply `colorsys.hls_to_rgb`, scale back to
`[0, 255]` truncating to ints. -/
def HSL.to_rgb (c : HSL) : RGB :=
  let rgb := hls_to_rgb ((c.h : ℚ) / 360) ((c.l : ℚ) / 100) ((c.s : ℚ) / 100)
  RGB.ofInts (pyInt (rgb.1 * 255)) (pyInt (rgb.2.1 * 255)) (pyInt (rgb.2.2 * 255))

/-- `RGB.luminance`: `0.2126*r + 0.7152*g + 0.0722*b` on normalized
channels. -/
def RGB.luminance (c : RGB) : ℚ :=
  (2126/10000) * ((c.r : ℚ) / 255) + (7152/10000) * ((c.g : ℚ) / 255) +
    (722/10000) * ((c.b : ℚ) / 255)

/-- ASCII model of the `color.strip().lower()` done by `Color._parse_string`. -/
def pyStripLower (s : String) : String :=
  String.mk ((((s.data.dropWhile Char.isWhitespace).reverse.dropWhile
    Char.isWhitespace).reverse).map Char.toLower)

/-- `str.startswith` on character lists. -/
def listStarts : List Char → List Char → Bool
  | [], _ => true
  | _ :: _, [] => false
  | p :: ps, c :: cs => p = c && listStarts ps cs

/-- Value of one hex digit, as accepted by Python `int(_, 16)`. -/
def hexVal (c : Char) : Option ℕ :=
  if '0' ≤ c ∧ c ≤ '9' then some (c.toNat - 48)
  else if 'a' ≤ c ∧ c ≤ 'f' then some (c.toNat - 87)
  else if 'A' ≤ c ∧ c ≤ 'F' then some (c.toNat - 55)
  else none

/-- Accumulate hex digits left to right; `none` on a non-digit. -/
def hexAccum : List Char → ℕ → Option ℕ
  | [], acc => some acc
  | c :: cs, acc =>
    match hexVal c with
    | none => none
    | some v => hexAccum cs (16 * acc + v)

/-- Value of a nonempty all-hex digit run. -/
def hexStrVal (cs : List Char) : Option ℕ :=
  match cs with
  | [] => none
  | _ => hexAccum cs 0

/-- Strip an optional `0x`/`0X` prefix, which `int(_, 16)` allows. -/
def dropHexPre : List Char → List Char
  | '0' :: 'x' :: rest => rest
  | '0' :: 'X' :: rest => rest
  | cs => cs

/-- Strip surrounding whitespace, as `int(_, 16)` does. -/
def trimChars (cs : List Char) : List Char :=
  ((cs.dropWhile Char.isWhitespace).reverse.dropWhile Char.isWhitespace).reverse

/-- Python `int(s, 16)`: optional surrounding whitespace, optional sign,
optional `0x` prefix, then a nonempty hex-digit run (digit-grouping
underscores are not modelled; no two-character slice can contain a valid
one). `none` is the raised `ValueError`. -/
def pyIntBase16 (s : String) : Option ℤ :=
  match trimChars s.data with
  | '+' :: rest => (hexStrVal (dropHexPre rest)).map (fun n => (n : ℤ))
  | '-' :: rest => (hexStrVal (dropHexPre rest)).map (fun n => -(n : ℤ))
  | rest => (hexStrVal (dropHexPre rest)).map (fun n => (n : ℤ))

/-- `"".join(c * 2 for c in s)`: duplicate each character. -/
def dupChars : List Char → List Char
  | [] => []
  | c :: cs => c :: c :: dupChars cs

/-- `Color._parse_hex` (`none` models the `ValueError` raised by `int`):
strip the leading `#`s, expand a 3-character form by duplicating each
character, then hex-parse the slices `[0:2]`, `[2:4]`, `[4:6]`.  Note the
code never checks the length itself: failure happens only when a slice is
empty or not a hex numeral. -/
def parse_hex (hex_str : String) : Option RGB :=
  let hs0 := hex_str.data.dropWhile (fun c => c = '#')
  let hs := if hs0.length = 3 then dupChars hs0 else hs0
  match pyIntBase16 (String.mk (hs.take 2)),
        pyIntBase16 (String.mk ((hs.drop 2).take 2)),
        pyIntBase16 (String.mk ((hs.drop 4).take 2)) with
  | some r, some g, some b => some (RGB.ofInts r g b)
  | _, _, _ => none

/-- ASCII `\s` of the regexes. -/
def pySpace (c : Char) : Bool :=
  (c == ' ') || (c == '\t') || (c == '\n') || (c == '\r') ||
  (c == '\x0b') || (c == '\x0c')

/-- Python `int()` of a decimal digit run. -/
def decVal (cs : List Char) : ℤ :=
  cs.foldl (fun acc c => 10 * acc + ((c.toNat : ℤ) - 48)) 0

/-- Greedy `(\d+)`; `none` when there is no leading digit. -/
def takeNum (cs : List Char) : Option (ℤ × List Char) :=
  match cs.takeWhile Char.isDigit with
  | [] => none
  | ds => some (decVal ds, cs.dropWhile Char.isDigit)

/-- A literal `,` followed by greedy `\s*`. -/
def commaSpaces : List Char → Option (List Char)
  | ',' :: rest => some (rest.dropWhile pySpace)
  | _ => none

/-- The `a?\(` step of `rgba?\(` and `hsla?\(` (regex backtracking resolved:
the alternatives `(` and `a(` are mutually exclusive). -/
def letterAParen : List Char → Option (List Char)
  | '(' :: rest => some rest
  | 'a' :: '(' :: rest => some rest
  | _ => none

/-- An optional `%`. -/
def skipPercent : List Char → List Char
  | '%' :: rest => rest
  | cs => cs

/-- `Color._parse_rgb_string`:
`re.match(r"rgba?\((\d+),\s*(\d+),\s*(\d+)", s)` — note the pattern permits
whitespace only after each comma, not after the opening parenthesis and not
before a comma. `none` is the raised `ValueError`. -/
def parse_rgb_string (s : String) : Option RGB :=
  match s.data with
  | 'r' :: 'g' :: 'b' :: cs => do
    let cs ← letterAParen cs
    let (v1, cs) ← takeNum cs
    let cs ← commaSpaces cs
    let (v2, cs) ← takeNum cs
    let cs ← commaSpaces cs
    let (v3, _) ← takeNum cs
    pure (RGB.ofInts v1 v2 v3)
  | _ => none

/-- `Color._parse_hsl_string`:
`re.match(r"hsla?\((\d+),\s*(\d+)%?,\s*(\d+)%?", s)`. -/
def parse_hsl_string (s : String) : Option RGB :=
  match s.data with
  | 'h' :: 's' :: 'l' :: cs => do
    let cs ← letterAParen cs
    let (v1, cs) ← takeNum cs
    let cs ← commaSpaces cs
    let (v2, cs) ← takeNum cs
    let cs ← commaSpaces (skipPercent cs)
    let (v3, _) ← takeNum cs
    pure (HSL.ofInts v1 v2 v3).to_rgb
  | _ => none

/-- The module-level `NAMED_COLORS` table. -/
def NAMED_COLORS : List (String × String) := [
  ("black", "#000000"), ("white", "#ffffff"), ("red", "#ff0000"),
  ("green", "#00ff00"), ("blue", "#0000ff"), ("yellow", "#ffff00"),
  ("cyan", "#00ffff"), ("magenta", "#ff00ff"), ("orange", "#ffa500"),
  ("purple", "#800080"), ("pink", "#ffc0cb"), ("brown", "#a52a2a"),
  ("gray", "#808080"), ("grey", "#808080"), ("navy", "#000080"),
  ("teal", "#008080"), ("olive", "#808000"), ("maroon", "#800000"),
  ("aqua", "#00ffff"), ("lime", "#00ff00"), ("silver", "#c0c0c0")]

/-- `Color._parse_string`: strip and lower the input, then dispatch on the
prefix (`#`, `rgb`, `hsl`, named colour); `none` models the raised
`ValueError` (the spec's FormatError). -/
def parse_string (s : String) : Option RGB :=
  let c := pyStripLower s
  if listStarts ['#'] c.data then parse_hex c
  else if listStarts ['r', 'g', 'b'] c.data then parse_rgb_string c
  else if listStarts ['h', 's', 'l'] c.data then parse_hsl_string c
  else
    match NAMED_COLORS.lookup c with
    | some hx => parse_hex hx
    | none => none

/-- Class `Color`: a wrapper around one normalized `RGB` value. -/
structure Color where
  rgb : RGB
deriving DecidableEq, Repr

/-- `Color(s)` for a string argument. -/
def Color.ofString (s : String) : Option Color := (parse_string s).map Color.mk

/-- `Color.invert`: channel-wise `255 - v`, re-clamped by `RGB`. -/
def Color.invert (c : Color) : Color :=
  ⟨RGB.ofInts (255 - c.rgb.r) (255 - c.rgb.g) (255 - c.rgb.b)⟩

/-- `Color.blend`: per-channel `int(self*(1-ratio) + other*ratio)`,
re-clamped by the `RGB` constructor. -/
def Color.blend (c o : Color) (ratio : ℚ) : Color :=
  ⟨RGB.ofInts (pyInt ((c.rgb.r : ℚ) * (1 - ratio) + (o.rgb.r : ℚ) * ratio))
              (pyInt ((c.rgb.g : ℚ) * (1 - ratio) + (o.rgb.g : ℚ) * ratio))
              (pyInt ((c.rgb.b : ℚ) * (1 - ratio) + (o.rgb.b : ℚ) * ratio))⟩

/-- `Color.contrast_ratio`: `max(l1, l2) / min(l1, l2)` where
`li = luminance + 0.05`. -/
def Color.contrast_ratio (c o : Color) : ℚ :=
  let l1 := c.rgb.luminance + 1/20
  let l2 := o.rgb.luminance + 1/20
  max l1 l2 / min l1 l2

/-- `Color.complement`: the HSL copy's hue field is reassigned in place
(dataclass field mutation runs no re-validation), then converted back. -/
def Color.complement (c : Color) : Color :=
  let hsl := c.rgb.to_hsl
  ⟨(HSL.mk ((hsl.h + 180) % 360) hsl.s hsl.l).to_rgb⟩

/-- `Palette.complementary`. -/
def Palette.complementary (base : Color) : List Color := [base, base.complement]

/-- `Palette.triadic`. -/
def Palette.triadic (base : Color) : List Color :=
  let hsl := base.rgb.to_hsl
  [base,
   ⟨(HSL.ofInts ((hsl.h + 120) % 360) hsl.s hsl.l).to_rgb⟩,
   ⟨(HSL.ofInts ((hsl.h + 240) % 360) hsl.s hsl.l).to_rgb⟩]

/-- Python `a // b`: `none` on division by zero (`ZeroDivisionError`). -/
def pyFloorDiv (a b : ℤ) : Option ℤ := if b = 0 then none else some (Int.fdiv a b)

/-- `Palette.monochromatic`; `none` is the `ZeroDivisionError` raised by
`step = 80 // count` when `count = 0`. -/
def Palette.monochromatic (base : Color) (count : ℤ) : Option (List Color) :=
  let hsl := base.rgb.to_hsl
  (pyFloorDiv 80 count).map (fun step =>
    let start := max 10 (hsl.l - Int.fdiv (step * count) 2)
    (List.range count.toNat).map (fun i : ℕ =>
      (⟨(HSL.ofInts hsl.h hsl.s (min 90 (start + step * ((i : ℤ))))).to_rgb⟩ : Color)))

/-- `Palette.gradient` (`stop` is the Python parameter named `end`). -/
def Palette.gradient (start stop : Color) (steps : ℤ) : List Color :=
  (List.range steps.toNat).map (fun i : ℕ =>
    start.blend stop (if 1 < steps then ((i : ℚ)) / ((steps : ℚ) - 1) else 0))

/-- The rgb-string pattern exactly as claim C2 words it (refinement
comparison definition, not from the source): whitespace also permitted
after the opening parenthesis and before each comma, that is
`rgba?\(\s*(\d+)\s*,\s*(\d+)\s*,\s*(\d+)`. -/
def rgbSpecParse (s : String) : Option RGB :=
  match s.data with
  | 'r' :: 'g' :: 'b' :: cs => do
    let cs ← letterAParen cs
    let (v1, cs) ← takeNum (cs.dropWhile pySpace)
    let cs ← commaSpaces (cs.dropWhile pySpace)
    let (v2, cs) ← takeNum cs
    let cs ← commaSpaces (cs.dropWhile pySpace)
    let (v3, _) ← takeNum cs
    pure (RGB.ofInts v1 v2 v3)
  | _ => none

/-- Membership in the lowercase hex alphabet `0-9a-f` (the characters a
hex colour literal is made of after `str.lower()`, and the alphabet of
`to_hex` output). -/
def lowHex (c : Char) : Bool :=
  (c == '0') || (c == '1') || (c == '2') || (c == '3') || (c == '4') ||
  (c == '5') || (c == '6') || (c == '7') || (c == '8') || (c == '9') ||
  (c == 'a') || (c == 'b') || (c == 'c') || (c == 'd') || (c == 'e') || (c == 'f')

/-- Numeric value of a hex digit character (0 for non-digits). -/
def hexN (c : Char) : ℕ := (hexVal c).getD 0

/-! ### General lemmas about the embedding -/

lemma clamp255_nonneg (x : ℤ) : 0 ≤ clamp255 x := le_max_left 0 _

lemma clamp255_le255 (x : ℤ) : clamp255 x ≤ 255 :=
  max_le (by norm_num) (min_le_left _ _)

lemma clamp255_of_mem {x : ℤ} (h1 : 0 ≤ x) (h2 : x ≤ 255) : clamp255 x = x := by
  unfold clamp255
  rw [min_eq_right h2, max_eq_right h1]

/-- Every constructed `RGB` satisfies the clamp invariant. -/
lemma RGB.ofInts_inRange (r g b : ℤ) : (RGB.ofInts r g b).inRange :=
  ⟨clamp255_nonneg r, clamp255_le255 r, clamp255_nonneg g, clamp255_le255 g,
   clamp255_nonneg b, clamp255_le255 b⟩

/-- Re-validating an in-range `RGB` changes nothing. -/
lemma RGB.ofInts_self {c : RGB} (h : c.inRange) : RGB.ofInts c.r c.g c.b = c := by
  obtain ⟨h1, h2, h3, h4, h5, h6⟩ := h
  unfold RGB.ofInts
  rw [clamp255_of_mem h1 h2, clamp255_of_mem h3 h4, clamp255_of_mem h5 h6]

/-- `int()` of a value that is already an integer. -/
lemma pyInt_intCast (n : ℤ) : pyInt ((n : ℚ)) = n := by
  unfold pyInt
  by_cases h : ((n : ℚ)) < 0
  · rw [if_pos h]
    rw [show (-(n : ℚ)) = (((-n : ℤ) : ℚ)) by push_cast; ring, Int.floor_intCast]
    ring
  · rw [if_neg h, Int.floor_intCast]

/-- Case analysis on a lowercase hex digit. -/
lemma lowHex_elim {c : Char} (h : lowHex c = true) :
    c = '0' ∨ c = '1' ∨ c = '2' ∨ c = '3' ∨ c = '4' ∨ c = '5' ∨ c = '6' ∨
    c = '7' ∨ c = '8' ∨ c = '9' ∨ c = 'a' ∨ c = 'b' ∨ c = 'c' ∨ c = 'd' ∨
    c = 'e' ∨ c = 'f' := by
  simp only [lowHex, Bool.or_eq_true, beq_iff_eq] at h
  tauto

/-- The facts about a lowercase hex digit used by the parsing proofs. -/
lemma lowHex_facts {c : Char} (h : lowHex c = true) :
    hexVal c = some (hexN c) ∧ c.toLower = c ∧ c.isWhitespace = false ∧
    c ≠ '#' ∧ c ≠ '+' ∧ c ≠ '-' ∧ c ≠ 'x' ∧ c ≠ 'X' := by
  rcases lowHex_elim h with rfl | rfl | rfl | rfl | rfl | rfl | rfl | rfl |
    rfl | rfl | rfl | rfl | rfl | rfl | rfl | rfl <;> exact ⟨rfl, rfl, rfl,
    by decide, by decide, by decide, by decide, by decide⟩

/-! ### Evaluation of the HSL round trip at RGB(10, 20, 30) -/

lemma to_hsl_102030 : (RGB.ofInts 10 20 30).to_hsl = HSL.mk 210 50 7 := by
  have h1 : ⌊(7/12 : ℚ)⌋ = 0 := by
    rw [Int.floor_eq_iff] <;> norm_num
  have h4 : ⌊(400/51 : ℚ)⌋ = 7 := by
    rw [Int.floor_eq_iff] <;> norm_num
  norm_num [RGB.ofInts, clamp255, RGB.to_hsl, rgb_to_hls, pyMod1, pyInt,
    max_def, min_def, HSL.ofInts, clamp100, h1, h4]

lemma to_rgb_210_50_7 : (HSL.mk 210 50 7).to_rgb = RGB.mk 8 17 26 := by
  have h1 : ⌊(7/12 : ℚ)⌋ = 0 := by
    rw [Int.floor_eq_iff] <;> norm_num
  have h2 : ⌊(11/12 : ℚ)⌋ = 0 := by
    rw [Int.floor_eq_iff] <;> norm_num
  have h3 : ⌊(1/4 : ℚ)⌋ = 0 := by
    rw [Int.floor_eq_iff] <;> norm_num
  have h4 : ⌊(1785/200 : ℚ)⌋ = 8 := by
    rw [Int.floor_eq_iff] <;> norm_num
  have h5 : ⌊(357/20 : ℚ)⌋ = 17 := by
    rw [Int.floor_eq_iff] <;> norm_num
  have h6 : ⌊(5355/200 : ℚ)⌋ = 26 := by
    rw [Int.floor_eq_iff] <;> norm_num
  norm_num [HSL.to_rgb, hls_to_rgb, hlsV, pyMod1, pyInt, RGB.ofInts, clamp255,
    h1, h2, h3, h4, h5, h6]

lemma roundTrip102030 : (RGB.ofInts 10 20 30).to_hsl.to_rgb = RGB.mk 8 17 26 := by
  rw [to_hsl_102030, to_rgb_210_50_7]

/-- Claim C3, as stated, is false at RGB(10, 20, 30): the round trip
`to_hsl().to_rgb()` does not stay within 1 of every channel (it returns
RGB(8, 17, 26), so the channels drift by 2, 3 and 4). -/
theorem C3_counterexample :
    ¬ ((((RGB.ofInts 10 20 30).to_hsl.to_rgb.r - 10).natAbs ≤ 1) ∧
       (((RGB.ofInts 10 20 30).to_hsl.to_rgb.g - 20).natAbs ≤ 1) ∧
       (((RGB.ofInts 10 20 30).to_hsl.to_rgb.b - 30).natAbs ≤ 1)) := by
  rw [roundTrip102030]
  decide

/-- Claim C3 amended: the RGB→HSL→RGB round trip is lossy beyond 1 unit per
channel; at RGB(10, 20, 30) it evaluates to RGB(8, 17, 26) (truncating
saturation and lightness to whole percents loses up to 4 channel units
here). -/
theorem C3_theorem : (RGB.ofInts 10 20 30).to_hsl.to_rgb = RGB.mk 8 17 26 :=
  roundTrip102030

/-! ### Triadic and complementary palettes (claim C4) -/

lemma to_hsl_black : (RGB.mk 0 0 0).to_hsl = HSL.mk 0 0 0 := by
  norm_num [RGB.to_hsl, rgb_to_hls, HSL.ofInts, clamp100, pyInt, pyMod1,
    max_def, min_def]

lemma to_rgb_gray0 (h : ℤ) : (HSL.mk h 0 0).to_rgb = RGB.mk 0 0 0 := by
  norm_num [HSL.to_rgb, hls_to_rgb, pyInt, RGB.ofInts, clamp255]

lemma triadic_black :
    Palette.triadic ⟨RGB.mk 0 0 0⟩ =
      [⟨RGB.mk 0 0 0⟩, ⟨RGB.mk 0 0 0⟩, ⟨RGB.mk 0 0 0⟩] := by
  simp [Palette.triadic, to_hsl_black, HSL.ofInts, clamp100]
  exact ⟨to_rgb_gray0 120, to_rgb_gray0 240⟩

/-- Claim C4, as stated, is false at base = Color(RGB(0, 0, 0)) (black): the
three returned colours are all black again, whose hues are all 0, so the
hues of the returned colours are not pairwise 120 degrees apart mod 360. -/
theorem C4_counterexample :
    ¬ List.Pairwise (fun a b : ℤ => (b - a) % 360 = 120 ∨ (a - b) % 360 = 120)
      ((Palette.triadic ⟨RGB.ofInts 0 0 0⟩).map (fun c => c.rgb.to_hsl.h)) := by
  rw [show RGB.ofInts 0 0 0 = RGB.mk 0 0 0 by decide, triadic_black]
  simp [to_hsl_black]

/-- Claim C4 amended: `Palette.complementary` always returns exactly 2
colours and `Palette.triadic` exactly 3; the triadic colours are
constructed at the hues `h`, `(h+120) % 360`, `(h+240) % 360` of the base's
HSL view, which are pairwise exactly 120 degrees apart mod 360 — but the
hues of the returned colours themselves may collapse (they are all 0 for an
achromatic base, see the counterexample). -/
theorem C4_theorem (base : Color) :
    (Palette.complementary base).length = 2 ∧
    (Palette.triadic base).length = 3 ∧
    List.Pairwise (fun a b : ℤ => (b - a) % 360 = 120 ∨ (a - b) % 360 = 120)
      [base.rgb.to_hsl.h, (base.rgb.to_hsl.h + 120) % 360,
       (base.rgb.to_hsl.h + 240) % 360] := by
  refine ⟨rfl, rfl, ?_⟩
  obtain ⟨x, hx⟩ : ∃ x : ℤ, base.rgb.to_hsl.h = x % 360 := by
    simp only [RGB.to_hsl, HSL.ofInts]
    exact ⟨_, rfl⟩
  rw [hx]
  have hb1 : 0 ≤ x % 360 := Int.emod_nonneg x (by norm_num)
  have hb2 : x % 360 < 360 := Int.emod_lt_of_pos x (by norm_num)
  constructor
  · intro a ha
    simp only [List.mem_cons, List.mem_singleton, List.not_mem_nil,
      or_false] at ha
    rcases ha with rfl | rfl
    · omega
    · omega
  constructor
  · intro a ha
    simp only [List.mem_cons, List.mem_singleton, List.not_mem_nil,
      or_false] at ha
    rcases ha with rfl
    omega
  · exact List.pairwise_singleton _ _

/-! ### RGB clamping and hex rendering (claim C6) -/

lemma hexDigit_lowHex (n : ℤ) (h1 : 0 ≤ n) (h2 : n ≤ 15) :
    lowHex (hexDigit n) = true := by
  interval_cases n <;> decide

/-- Claim C6: every `RGB(r, g, b)` construction clamps each channel into
`[0, 255]`, and `to_hex()` of a constructed value is `#` followed by
exactly 6 lowercase hex digits. -/
theorem C6_theorem (r g b : ℤ) :
    (RGB.ofInts r g b).inRange ∧
    (RGB.ofInts r g b).to_hex.data.length = 7 ∧
    (RGB.ofInts r g b).to_hex.data.head? = some '#' ∧
    ∀ ch ∈ (RGB.ofInts r g b).to_hex.data.tail, lowHex ch = true := by
  refine ⟨RGB.ofInts_inRange r g b, by simp [RGB.to_hex, byteToHex], by
    simp [RGB.to_hex], ?_⟩
  intro ch hch
  simp only [RGB.to_hex, byteToHex, RGB.ofInts, List.tail_cons, List.mem_append,
    List.mem_cons, List.not_mem_nil, or_false, or_assoc] at hch
  have hb : ∀ x : ℤ, 0 ≤ x → x ≤ 255 →
      lowHex (hexDigit (x / 16)) = true ∧ lowHex (hexDigit (x % 16)) = true := by
    intro x hx1 hx2
    exact ⟨hexDigit_lowHex _ (by omega) (by omega),
           hexDigit_lowHex _ (by omega) (by omega)⟩
  rcases hch with rfl | rfl | rfl | rfl | rfl | rfl
  · exact (hb _ (clamp255_nonneg r) (clamp255_le255 r)).1
  · exact (hb _ (clamp255_nonneg r) (clamp255_le255 r)).2
  · exact (hb _ (clamp255_nonneg g) (clamp255_le255 g)).1
  · exact (hb _ (clamp255_nonneg g) (clamp255_le255 g)).2
  · exact (hb _ (clamp255_nonneg b) (clamp255_le255 b)).1
  · exact (hb _ (clamp255_nonneg b) (clamp255_le255 b)).2

/-! ### Contrast ratio (claim C9) -/

/-- Claim C9: `contrast_ratio` equals the WCAG formula
`(max(L1, L2) + 0.05) / (min(L1, L2) + 0.05)`, and the white/black contrast
is exactly 21 (white parsed from the named-colour table has luminance 1,
black has luminance 0). -/
theorem C9_theorem (a b : Color) :
    a.contrast_ratio b =
      (max a.rgb.luminance b.rgb.luminance + 1/20) /
        (min a.rgb.luminance b.rgb.luminance + 1/20) ∧
    ((Color.ofString "white").bind (fun w =>
        (Color.ofString "black").map (fun k => w.contrast_ratio k))) = some 21 := by
  constructor
  · simp only [Color.contrast_ratio]
    rw [max_add_add_right, min_add_add_right]
  · have hw : Color.ofString "white" = some ⟨⟨255, 255, 255⟩⟩ := by decide
    have hk : Color.ofString "black" = some ⟨⟨0, 0, 0⟩⟩ := by decide
    rw [hw, hk]
    norm_num [Option.bind, Color.contrast_ratio, RGB.luminance, max_def, min_def]

/-! ### Invert is an involution (claim C10) -/

lemma invert_invert_channel (x : ℤ) (h1 : 0 ≤ x) (h2 : x ≤ 255) :
    clamp255 (255 - clamp255 (255 - x)) = x := by
  have e1 : clamp255 (255 - x) = 255 - x := clamp255_of_mem (by omega) (by omega)
  rw [e1, show (255 : ℤ) - (255 - x) = x by ring, clamp255_of_mem h1 h2]

/-- Claim C10: on every colour whose channels satisfy the `RGB` clamp
invariant (which every constructed colour does), `invert` is an involution:
`c.invert().invert() == c` channel for channel. -/
theorem C10_theorem (c : Color) (h : c.rgb.inRange) : c.invert.invert = c := by
  obtain ⟨⟨r, g, b⟩⟩ := c
  obtain ⟨h1, h2, h3, h4, h5, h6⟩ := h
  simp only [Color.invert, RGB.ofInts]
  rw [invert_invert_channel r h1 h2, invert_invert_channel g h3 h4,
    invert_invert_channel b h5 h6]

/-- Witness for C10 at the constructed colour RGB(5, 6, 7). -/
theorem C10_witness :
    (Color.mk (RGB.mk 5 6 7)).rgb.inRange ∧
    (Color.mk (RGB.mk 5 6 7)).invert.invert = Color.mk (RGB.mk 5 6 7) :=
  ⟨by decide, C10_theorem (Color.mk (RGB.mk 5 6 7)) (by decide)⟩

/-! ### Gradient (claim C7) -/

lemma blend_ratio_zero (a b : Color) (ha : a.rgb.inRange) : a.blend b 0 = a := by
  obtain ⟨⟨r, g, b2⟩⟩ := a
  simp only [Color.blend]
  norm_num [pyInt_intCast]
  exact RGB.ofInts_self ha

lemma blend_ratio_one (a b : Color) (hb : b.rgb.inRange) : a.blend b 1 = b := by
  obtain ⟨⟨r, g, b2⟩⟩ := b
  simp only [Color.blend]
  norm_num [pyInt_intCast]
  exact RGB.ofInts_self hb

/-- Claim C7: for `steps > 1`, `gradient` returns `steps` samples with
sample `i` blended at ratio `i/(steps-1)`, the first equal to `start` and
the last equal to `end`; for `steps ≤ 1` every ratio is 0, so it returns
`steps` copies of `start` (in particular one copy for `steps = 1`) instead
of raising. -/
theorem C7_theorem (a b : Color) (steps : ℤ) (ha : a.rgb.inRange)
    (hb : b.rgb.inRange) :
    (steps ≤ 1 → Palette.gradient a b steps = List.replicate steps.toNat a) ∧
    (1 < steps →
      (Palette.gradient a b steps).length = steps.toNat ∧
      (∀ i : ℕ, i < steps.toNat →
        (Palette.gradient a b steps)[i]? =
          some (a.blend b ((i : ℚ) / ((steps : ℚ) - 1)))) ∧
      (Palette.gradient a b steps).head? = some a ∧
      (Palette.gradient a b steps).getLast? = some b) := by
  constructor
  · intro h
    unfold Palette.gradient
    have hf : (fun i : ℕ =>
        a.blend b (if 1 < steps then (i : ℚ) / ((steps : ℚ) - 1) else 0)) =
        fun _ : ℕ => a := by
      funext i
      rw [if_neg (by omega), blend_ratio_zero a b ha]
    rw [hf]
    simp [List.map_const']
  · intro h
    have hlen : (Palette.gradient a b steps).length = steps.toNat := by
      simp [Palette.gradient]
    refine ⟨hlen, ?_, ?_, ?_⟩
    · intro i hi
      simp [Palette.gradient, List.getElem?_map, List.getElem?_range, hi, if_pos h]
    · rw [List.head?_eq_getElem?]
      have h0 : 0 < steps.toNat := by omega
      simp only [Palette.gradient, List.getElem?_map, List.getElem?_range, h0,
        if_pos h, Option.map_some', if_true, Nat.cast_zero, zero_div]
      rw [blend_ratio_zero a b ha]
    · rw [List.getLast?_eq_getElem?, hlen]
      have h0 : steps.toNat - 1 < steps.toNat := by omega
      simp only [Palette.gradient, List.getElem?_map, List.getElem?_range, h0,
        if_pos h, Option.map_some', if_true]
      have h1n : 1 ≤ steps.toNat := by omega
      have hs : ((steps.toNat : ℤ)) = steps := Int.toNat_of_nonneg (by omega)
      have hq : ((steps.toNat : ℚ)) = (steps : ℚ) := by
        exact_mod_cast congrArg (fun z : ℤ => (z : ℚ)) hs
      have hc : ((steps.toNat - 1 : ℕ) : ℚ) = (steps : ℚ) - 1 := by
        rw [Nat.cast_sub h1n, hq, Nat.cast_one]
      have hnz : (steps : ℚ) - 1 ≠ 0 := by
        have h2 : (2 : ℤ) ≤ steps := by omega
        have : (2 : ℚ) ≤ (steps : ℚ) := by exact_mod_cast h2
        intro hcon
        nlinarith
      rw [hc, div_self hnz, blend_ratio_one a b hb]

/-- Witness for C7 at RGB(1, 2, 3), RGB(200, 100, 50) and `steps = 1`:
`gradient(a, b, 1) == [a]`. -/
theorem C7_witness :
    Palette.gradient (Color.mk (RGB.mk 1 2 3)) (Color.mk (RGB.mk 200 100 50)) 1 =
      List.replicate (1 : ℤ).toNat (Color.mk (RGB.mk 1 2 3)) :=
  (C7_theorem (Color.mk (RGB.mk 1 2 3)) (Color.mk (RGB.mk 200 100 50)) 1
    (by decide) (by decide)).1 (by decide)

/-! ### Monochromatic palette (claim C8) -/

/-- Claim C8: `monochromatic(base, 0)` fails explicitly (the
`ZeroDivisionError` raised by `step = 80 // count`, modelled as `none`)
rather than returning anything; for `count > 0` it returns exactly `count`
colours, each built from the base's hue and saturation with only the
lightness varying. -/
theorem C8_theorem (base : Color) (count : ℤ) :
    (count = 0 → Palette.monochromatic base count = none) ∧
    (0 < count →
      (Palette.monochromatic base count).map List.length = some count.toNat ∧
      ∀ l, Palette.monochromatic base count = some l → ∀ c ∈ l, ∃ li : ℤ,
        c = Color.mk ((HSL.ofInts base.rgb.to_hsl.h base.rgb.to_hsl.s li).to_rgb)) := by
  constructor
  · intro h
    simp [Palette.monochromatic, pyFloorDiv, h]
  · intro h
    have hne : count ≠ 0 := by omega
    constructor
    · simp [Palette.monochromatic, pyFloorDiv, hne]
    · intro l hl c hc
      simp only [Palette.monochromatic, pyFloorDiv, if_neg hne,
        Option.map_some', Option.some.injEq] at hl
      subst hl
      simp only [List.mem_map, List.mem_range] at hc
      obtain ⟨i, _, rfl⟩ := hc
      exact ⟨_, rfl⟩

/-- Witness for C8: `monochromatic(base, 0)` errors and
`monochromatic(base, 2)` returns 2 colours, at base RGB(1, 2, 3). -/
theorem C8_witness :
    Palette.monochromatic (Color.mk (RGB.mk 1 2 3)) 0 = none ∧
    (Palette.monochromatic (Color.mk (RGB.mk 1 2 3)) 2).map List.length =
      some (2 : ℤ).toNat :=
  ⟨(C8_theorem (Color.mk (RGB.mk 1 2 3)) 0).1 rfl,
   ((C8_theorem (Color.mk (RGB.mk 1 2 3)) 2).2 (by decide)).1⟩

/-! ### List and character lemmas for the parsing claims -/

lemma dropWhile_false {p : Char → Bool} {l : List Char}
    (h : ∀ c ∈ l, p c = false) : l.dropWhile p = l := by
  cases l with
  | nil => rfl
  | cons x xs => simp [List.dropWhile_cons, h x (by simp)]

lemma map_id_of {f : Char → Char} {l : List Char}
    (h : ∀ c ∈ l, f c = c) : l.map f = l := by
  induction l with
  | nil => rfl
  | cons x xs ih =>
    simp only [List.map_cons, h x (by simp),
      ih (fun c hc => h c (by simp [hc])), List.cons.injEq, and_self]

lemma takeWhile_append_of {p : Char → Bool} {xs t : List Char}
    (hxs : ∀ c ∈ xs, p c = true)
    (ht : ∀ c, t.head? = some c → p c = false) :
    (xs ++ t).takeWhile p = xs ∧ (xs ++ t).dropWhile p = t := by
  induction xs with
  | nil =>
    simp only [List.nil_append]
    cases t with
    | nil => simp
    | cons c t' =>
      have hc := ht c rfl
      simp [List.takeWhile_cons, List.dropWhile_cons, hc]
  | cons x xs ih =>
    have hx := hxs x (by simp)
    have ih' := ih (fun c hc => hxs c (by simp [hc]))
    simp [List.takeWhile_cons, List.dropWhile_cons, hx, ih'.1, ih'.2]

lemma pySpace_not_digit {c : Char} (h : pySpace c = true) : c.isDigit = false := by
  simp only [pySpace, Bool.or_eq_true, beq_iff_eq, or_assoc] at h
  rcases h with rfl | rfl | rfl | rfl | rfl | rfl <;> decide

lemma digit_not_pySpace {c : Char} (h : c.isDigit = true) : pySpace c = false := by
  cases hps : pySpace c
  · rfl
  · rw [pySpace_not_digit hps] at h
    cases h

lemma head_digit_not_space {d t : List Char} (hd : d ≠ [])
    (hdd : ∀ c ∈ d, c.isDigit = true) :
    ∀ c, (d ++ t).head? = some c → pySpace c = false := by
  cases d with
  | nil => exact absurd rfl hd
  | cons dh dt =>
    intro c hc
    simp only [List.cons_append, List.head?_cons, Option.some.injEq] at hc
    subst hc
    exact digit_not_pySpace (hdd dh (by simp))

lemma takeNum_digits {d t : List Char} (hd : d ≠ [])
    (hdd : ∀ c ∈ d, c.isDigit = true)
    (ht : ∀ c, t.head? = some c → c.isDigit = false) :
    takeNum (d ++ t) = some (decVal d, t) := by
  obtain ⟨e1, e2⟩ := takeWhile_append_of hdd ht
  unfold takeNum
  rw [e1, e2]
  cases d with
  | nil => exact absurd rfl hd
  | cons dh dt => rfl

lemma commaSpaces_spaces {w t : List Char} (hw : ∀ c ∈ w, pySpace c = true)
    (ht : ∀ c, t.head? = some c → pySpace c = false) :
    commaSpaces (',' :: (w ++ t)) = some t := by
  obtain ⟨_, e2⟩ := takeWhile_append_of hw ht
  simp [commaSpaces, e2]

/-! ### The rgb() string grammar (claim C2) -/

/-- Claim C2, as stated, is false at the input `"rgb( 1, 2, 3)"`: the
claim's pattern permits whitespace after the opening parenthesis (so it
matches and yields RGB(1, 2, 3), second conjunct), but the code's pattern
`rgba?\((\d+),\s*(\d+),\s*(\d+)` does not, and parsing fails
(first conjunct). -/
theorem C2_counterexample :
    parse_string "rgb( 1, 2, 3)" = none ∧
    rgbSpecParse "rgb( 1, 2, 3)" = some (RGB.mk 1 2 3) := by
  constructor
  · decide
  · decide

/-- Claim C2 amended: a string starting with `rgb` is matched against
`rgba?\((\d+),\s*(\d+),\s*(\d+)` — integer components, whitespace permitted
only after each comma (not after the opening parenthesis and not before a
comma), any alpha component and trailing text ignored — and a match builds
RGB(R, G, B) (clamped by the RGB constructor); everything else fails with a
FormatError. This theorem proves the match direction on an arbitrary
decomposed input. -/
theorem C2_theorem (ab : Bool) (d1 w1 d2 w2 d3 t : List Char)
    (hd1 : d1 ≠ []) (hd1d : ∀ c ∈ d1, c.isDigit = true)
    (hd2 : d2 ≠ []) (hd2d : ∀ c ∈ d2, c.isDigit = true)
    (hd3 : d3 ≠ []) (hd3d : ∀ c ∈ d3, c.isDigit = true)
    (hw1 : ∀ c ∈ w1, pySpace c = true) (hw2 : ∀ c ∈ w2, pySpace c = true)
    (ht : ∀ c, t.head? = some c → c.isDigit = false) :
    parse_rgb_string (String.mk ('r' :: 'g' :: 'b' ::
        ((if ab then ['a'] else []) ++ '(' ::
          (d1 ++ ',' :: (w1 ++ (d2 ++ ',' :: (w2 ++ (d3 ++ t)))))))) =
      some (RGB.ofInts (decVal d1) (decVal d2) (decVal d3)) := by
  have e1 : takeNum (d1 ++ ',' :: (w1 ++ (d2 ++ ',' :: (w2 ++ (d3 ++ t))))) =
      some (decVal d1, ',' :: (w1 ++ (d2 ++ ',' :: (w2 ++ (d3 ++ t))))) := by
    refine takeNum_digits hd1 hd1d ?_
    intro c hc
    simp only [List.head?_cons, Option.some.injEq] at hc
    subst hc
    decide
  have e2 : commaSpaces (',' :: (w1 ++ (d2 ++ ',' :: (w2 ++ (d3 ++ t))))) =
      some (d2 ++ ',' :: (w2 ++ (d3 ++ t))) :=
    commaSpaces_spaces hw1 (head_digit_not_space hd2 hd2d)
  have e3 : takeNum (d2 ++ ',' :: (w2 ++ (d3 ++ t))) =
      some (decVal d2, ',' :: (w2 ++ (d3 ++ t))) := by
    refine takeNum_digits hd2 hd2d ?_
    intro c hc
    simp only [List.head?_cons, Option.some.injEq] at hc
    subst hc
    decide
  have e4 : commaSpaces (',' :: (w2 ++ (d3 ++ t))) = some (d3 ++ t) :=
    commaSpaces_spaces hw2 (head_digit_not_space hd3 hd3d)
  have e5 : takeNum (d3 ++ t) = some (decVal d3, t) := takeNum_digits hd3 hd3d ht
  cases ab
  · simp [parse_rgb_string, letterAParen, e1, e2, e3, e4, e5]
  · simp [parse_rgb_string, letterAParen, e1, e2, e3, e4, e5]

/-- Witness for C2 at the input `"rgb(0, 128, 255)"`. -/
theorem C2_witness :
    parse_rgb_string (String.mk ('r' :: 'g' :: 'b' ::
        ((if false then ['a'] else []) ++ '(' ::
          (['0'] ++ ',' :: ([' '] ++ (['1', '2', '8'] ++ ',' ::
            ([' '] ++ (['2', '5', '5'] ++ [')'])))))))) =
      some (RGB.ofInts (decVal ['0']) (decVal ['1', '2', '8'])
        (decVal ['2', '5', '5'])) :=
  C2_theorem false ['0'] [' '] ['1', '2', '8'] [' '] ['2', '5', '5'] [')']
    (by decide) (by decide) (by decide) (by decide) (by decide) (by decide)
    (by decide) (by decide)
    (by
      intro c hc
      simp only [List.head?_cons, Option.some.injEq] at hc
      subst hc
      decide)

/-! ### The hex grammar (claim C1) -/

lemma pyIntBase16_nil : pyIntBase16 (String.mk []) = none := rfl

lemma pyIntBase16_single {a : Char} (ha : lowHex a = true) :
    pyIntBase16 (String.mk [a]) = some (((hexN a : ℕ) : ℤ)) := by
  rcases lowHex_elim ha with rfl | rfl | rfl | rfl | rfl | rfl | rfl | rfl |
    rfl | rfl | rfl | rfl | rfl | rfl | rfl | rfl <;> decide

lemma pyIntBase16_pair {a b : Char} (ha : lowHex a = true) (hb : lowHex b = true) :
    pyIntBase16 (String.mk [a, b]) = some (((16 * hexN a + hexN b : ℕ) : ℤ)) := by
  rcases lowHex_elim ha with rfl | rfl | rfl | rfl | rfl | rfl | rfl | rfl |
    rfl | rfl | rfl | rfl | rfl | rfl | rfl | rfl <;>
  rcases lowHex_elim hb with rfl | rfl | rfl | rfl | rfl | rfl | rfl | rfl |
    rfl | rfl | rfl | rfl | rfl | rfl | rfl | rfl <;> decide

lemma dropHash {s : List Char} (hs : ∀ c ∈ s, lowHex c = true) :
    ('#' :: s).dropWhile (fun c => c = '#') = s := by
  rw [List.dropWhile_cons]
  simp only [decide_True, if_true]
  exact dropWhile_false fun c hc =>
    decide_eq_false (lowHex_facts (hs c hc)).2.2.2.1

lemma stripLower_hash {s : List Char} (hs : ∀ c ∈ s, lowHex c = true) :
    pyStripLower (String.mk ('#' :: s)) = String.mk ('#' :: s) := by
  have hws : ∀ c ∈ '#' :: s, c.isWhitespace = false := by
    intro c hc
    rcases List.mem_cons.mp hc with rfl | hc
    · decide
    · exact (lowHex_facts (hs c hc)).2.2.1
  have hlw : ∀ c ∈ '#' :: s, c.toLower = c := by
    intro c hc
    rcases List.mem_cons.mp hc with rfl | hc
    · decide
    · exact (lowHex_facts (hs c hc)).2.1
  unfold pyStripLower
  rw [show (String.mk ('#' :: s)).data = '#' :: s from rfl]
  rw [dropWhile_false hws]
  rw [dropWhile_false (fun c hc => hws c (List.mem_reverse.mp hc))]
  rw [List.reverse_reverse, map_id_of hlw]

lemma parse_hex_cons {s : List Char} (hs : ∀ c ∈ s, lowHex c = true) :
    parse_hex (String.mk ('#' :: s)) =
      match pyIntBase16 (String.mk ((if s.length = 3 then dupChars s else s).take 2)),
            pyIntBase16 (String.mk (((if s.length = 3 then dupChars s else s).drop 2).take 2)),
            pyIntBase16 (String.mk (((if s.length = 3 then dupChars s else s).drop 4).take 2)) with
      | some r, some g, some b => some (RGB.ofInts r g b)
      | _, _, _ => none := by
  simp only [parse_hex]
  rw [dropHash hs]

/-- Claim C1, as stated, is false at the input `"#12345"`: a `#`-prefixed
string with 5 hex digits (neither 3 nor 6) does not fail with a
FormatError — the code parses the slices `[0:2]`, `[2:4]`, `[4:6]` without
any length check and returns RGB(0x12, 0x34, 0x5). -/
theorem C1_counterexample : parse_string "#12345" = some (RGB.mk 18 52 5) := by
  decide

/-- Claim C1 amended: for a `#`-prefixed hex-digit string, a 3-digit form
duplicates each nibble (`#abc` is `#aabbcc`, channel value `17 * digit`)
and a form with 6 or more digits parses the first six directly; but the
only digit counts that fail with a FormatError are 0, 1, 2 and 4 — a count
of 5 parses (blue channel from the single digit), and counts above 6
ignore the extra digits. -/
theorem C1_theorem (s : List Char) (hs : ∀ c ∈ s, lowHex c = true) :
    parse_string (String.mk ('#' :: s)) = parse_hex (String.mk ('#' :: s)) ∧
    (∀ a b c, s = [a, b, c] →
      parse_hex (String.mk ('#' :: s)) =
        some (RGB.ofInts (((17 * hexN a : ℕ) : ℤ)) (((17 * hexN b : ℕ) : ℤ))
          (((17 * hexN c : ℕ) : ℤ)))) ∧
    (∀ a b c d e f t, s = a :: b :: c :: d :: e :: f :: t →
      parse_hex (String.mk ('#' :: s)) =
        some (RGB.ofInts (((16 * hexN a + hexN b : ℕ) : ℤ))
          (((16 * hexN c + hexN d : ℕ) : ℤ)) (((16 * hexN e + hexN f : ℕ) : ℤ)))) ∧
    (∀ a b c d e, s = [a, b, c, d, e] →
      parse_hex (String.mk ('#' :: s)) =
        some (RGB.ofInts (((16 * hexN a + hexN b : ℕ) : ℤ))
          (((16 * hexN c + hexN d : ℕ) : ℤ)) (((hexN e : ℕ) : ℤ)))) ∧
    ((s.length = 0 ∨ s.length = 1 ∨ s.length = 2 ∨ s.length = 4) →
      parse_hex (String.mk ('#' :: s)) = none) := by
  refine ⟨?_, ?_, ?_, ?_, ?_⟩
  · simp only [parse_string, stripLower_hash hs]
    rw [if_pos (by simp [listStarts])]
  · rintro a b c rfl
    have ha := hs a (by simp)
    have hb := hs b (by simp)
    have hc := hs c (by simp)
    rw [parse_hex_cons hs]
    rw [if_pos (show ([a, b, c] : List Char).length = 3 from rfl)]
    simp only [dupChars, List.take_succ_cons, List.take_zero,
      List.drop_succ_cons, List.drop_zero]
    rw [pyIntBase16_pair ha ha, pyIntBase16_pair hb hb, pyIntBase16_pair hc hc]
    rw [show 16 * hexN a + hexN a = 17 * hexN a from by ring,
      show 16 * hexN b + hexN b = 17 * hexN b from by ring,
      show 16 * hexN c + hexN c = 17 * hexN c from by ring]
  · rintro a b c d e f t rfl
    have ha := hs a (by simp)
    have hb := hs b (by simp)
    have hc := hs c (by simp)
    have hd := hs d (by simp)
    have he := hs e (by simp)
    have hf := hs f (by simp)
    rw [parse_hex_cons hs]
    rw [if_neg (by simp)]
    simp only [List.take_succ_cons, List.take_zero, List.drop_succ_cons,
      List.drop_zero]
    rw [pyIntBase16_pair ha hb, pyIntBase16_pair hc hd, pyIntBase16_pair he hf]
  · rintro a b c d e rfl
    have ha := hs a (by simp)
    have hb := hs b (by simp)
    have hc := hs c (by simp)
    have hd := hs d (by simp)
    have he := hs e (by simp)
    rw [parse_hex_cons hs]
    rw [if_neg (by simp)]
    simp only [List.take_succ_cons, List.take_zero, List.drop_succ_cons,
      List.drop_zero, List.take_nil, List.drop_nil]
    rw [pyIntBase16_pair ha hb, pyIntBase16_pair hc hd, pyIntBase16_single he]
  · intro hlen
    rcases s with _ | ⟨a, _ | ⟨b, _ | ⟨c, _ | ⟨d, _ | ⟨e, t⟩⟩⟩⟩⟩
    · decide
    · have ha := hs a (by simp)
      rw [parse_hex_cons hs]
      rw [if_neg (by simp)]
      simp only [List.take_succ_cons, List.take_zero, List.drop_succ_cons,
        List.drop_zero, List.take_nil, List.drop_nil]
      rw [pyIntBase16_single ha, pyIntBase16_nil]
    · have ha := hs a (by simp)
      have hb := hs b (by simp)
      rw [parse_hex_cons hs]
      rw [if_neg (by simp)]
      simp only [List.take_succ_cons, List.take_zero, List.drop_succ_cons,
        List.drop_zero, List.take_nil, List.drop_nil]
      rw [pyIntBase16_pair ha hb, pyIntBase16_nil]
    · exfalso
      simp at hlen
    · have ha := hs a (by simp)
      have hb := hs b (by simp)
      have hc := hs c (by simp)
      have hd := hs d (by simp)
      rw [parse_hex_cons hs]
      rw [if_neg (by simp)]
      simp only [List.take_succ_cons, List.take_zero, List.drop_succ_cons,
        List.drop_zero, List.take_nil, List.drop_nil]
      rw [pyIntBase16_pair ha hb, pyIntBase16_pair hc hd, pyIntBase16_nil]
    · exfalso
      simp at hlen

/-- Witness for C1 at the 3-digit shorthand `"#abc"`. -/
theorem C1_witness :
    parse_hex (String.mk ('#' :: ['a', 'b', 'c'])) =
      some (RGB.ofInts (((17 * hexN 'a' : ℕ) : ℤ)) (((17 * hexN 'b' : ℕ) : ℤ))
        (((17 * hexN 'c' : ℕ) : ℤ))) :=
  ( C1_theorem ['a', 'b', 'c'] (by decide)).2.1 'a' 'b' 'c' rfl
